import Mathlib

/-!
Verification of the minipad box-controller serial handler.

The development shallowly embeds the two variants of the serial handler
found in the repository:

* the rewrite (file with the hkey command prefix, HEKey settings dispatched
  through SerialHandler::hkey_rt .. SerialHandler::key_hid), and
* the legacy variant (src/handlers/serial_handler.cpp, key command prefix,
  SerialHandler::key_rt .. SerialHandler::key_hid with key_rest / key_down
  and a validated key_char).

Machine integers are modelled as Nat together with explicit reductions
modulo 2^8 / 2^16 at the points where the C code converts to uint8_t /
uint16_t.  C comparisons between uint16_t values and the integer constant
macros happen after integral promotion to int, so subtractions such as
upperHysteresis - value are embedded as Int subtractions.

The numeric constants HYSTERESIS_TOLERANCE, RAPID_TRIGGER_TOLERANCE,
TRAVEL_DISTANCE_IN_0_01MM and ANALOG_RESOLUTION come from definitions.hpp,
which is not part of the handler sources; they are therefore kept abstract
as a parameter record Consts.  HE_KEYS = 3 and DIGITAL_KEYS = 18 are fixed
by the build flags in platformio.ini.
-/

/-- Build-time constants from definitions.hpp, kept abstract. -/
structure Consts where
  hysteresisTolerance : Nat
  rapidTriggerTolerance : Nat
  travelDistance : Nat
  analogResolution : Nat
deriving DecidableEq, Repr

/-- Number of hall-effect keys, from the build flag -DHE_KEYS=3. -/
def HE_KEYS : Nat := 3

/-- Number of digital keys, from the build flag -DDIGITAL_KEYS=18. -/
def DIGITAL_KEYS : Nat := 18

/-- Configuration of one hall-effect key.  In the legacy variant
restPosition / downPosition are part of this record; the rewrite keeps them
in the keypad handler's runtime state and its setters never touch them, so
one record covers both variants. -/
structure HEKey where
  index : Nat
  rapidTrigger : Bool
  continuousRapidTrigger : Bool
  rapidTriggerUpSensitivity : Nat
  rapidTriggerDownSensitivity : Nat
  lowerHysteresis : Nat
  upperHysteresis : Nat
  keyChar : Nat
  restPosition : Nat
  downPosition : Nat
  hidEnabled : Bool
deriving DecidableEq, Repr

/-- Configuration of one digital key. -/
structure DigitalKey where
  index : Nat
  keyChar : Nat
  hidEnabled : Bool
deriving DecidableEq, Repr

/-- The in-memory device configuration (ConfigController.config). -/
structure Config where
  name : String
  heKeys : List HEKey
  digitalKeys : List DigitalKey
deriving DecidableEq, Repr

/-- Runtime state of one hall-effect key kept by the keypad handler. -/
structure HEKeyState where
  lastSensorValue : Nat
  lastMappedValue : Nat
deriving DecidableEq, Repr

/-- Runtime state of the keypad handler (outputMode and per-key states). -/
structure KeypadHandlerState where
  outputMode : Bool
  heKeyStates : List HEKeyState
deriving DecidableEq, Repr

/-- Conversion of a C int to uint8_t (reduction modulo 2^8). -/
def uint8 (i : Int) : Nat := (i % 256).toNat

/-- Conversion of a C int to uint16_t (reduction modulo 2^16). -/
def uint16 (i : Int) : Nat := (i % 65536).toNat

/-- The isTrue macro of the serial handler: a string argument is true
exactly when it equals the string 1 or the string true. -/
def isTrue (s : String) : Bool := s == "1" || s == "true"

/-- Decimal value of a digit run, as accumulated by atoi. -/
def digitsVal (cs : List Char) : Nat :=
  cs.foldl (fun a c => a * 10 + (c.toNat - 48)) 0

/-- Whitespace recognised by atoi via isspace. -/
def isSpaceChar (c : Char) : Bool :=
  c == ' ' || c == '\t' || c == '\n' || c == '\r' || c == Char.ofNat 11 || c == Char.ofNat 12

/-- The C standard library atoi: skip leading whitespace, read an optional
sign and then a maximal run of decimal digits (zero when there is none). -/
def atoi (s : String) : Int :=
  let cs := s.data.dropWhile isSpaceChar
  match cs with
  | '-' :: rest => - (digitsVal (rest.takeWhile Char.isDigit) : Int)
  | '+' :: rest => (digitsVal (rest.takeWhile Char.isDigit) : Int)
  | _ => (digitsVal (cs.takeWhile Char.isDigit) : Int)

/-- The char argument of the rewrite's char setting: a single-character
argument stands for its own character code, anything else is parsed by
atoi (strlen(arg0) == 1 ? (int)arg0[0] : atoi(arg0)). -/
def charArg (a : String) : Int :=
  if a.data.length = 1 then ((a.data.headD ' ').toNat : Int) else atoi a

/-- Placeholder key used as List.getD default when reading an array cell. -/
def defHEKey : HEKey :=
  { index := 0, rapidTrigger := false, continuousRapidTrigger := false
  , rapidTriggerUpSensitivity := 0, rapidTriggerDownSensitivity := 0
  , lowerHysteresis := 0, upperHysteresis := 0, keyChar := 0
  , restPosition := 0, downPosition := 0, hidEnabled := false }

/-- Placeholder digital key used as List.getD default. -/
def defDKey : DigitalKey := { index := 0, keyChar := 0, hidEnabled := false }

/-- Placeholder runtime key state used as List.getD default. -/
def defState : HEKeyState := { lastSensorValue := 0, lastMappedValue := 0 }

namespace Rewrite

/-- SerialHandler::hkey_rt: set the rapid trigger flag. -/
def hkey_rt (key : HEKey) (state : Bool) : HEKey :=
  { key with rapidTrigger := state }

/-- SerialHandler::hkey_crt: set the continuous rapid trigger flag. -/
def hkey_crt (key : HEKey) (state : Bool) : HEKey :=
  { key with continuousRapidTrigger := state }

/-- SerialHandler::hkey_rtus: accept the value only inside
[RAPID_TRIGGER_TOLERANCE, TRAVEL_DISTANCE_IN_0_01MM]. -/
def hkey_rtus (c : Consts) (key : HEKey) (value : Nat) : HEKey :=
  if c.rapidTriggerTolerance ≤ value ∧ value ≤ c.travelDistance then
    { key with rapidTriggerUpSensitivity := value }
  else key

/-- SerialHandler::hkey_rtds: accept the value only inside
[RAPID_TRIGGER_TOLERANCE, TRAVEL_DISTANCE_IN_0_01MM]. -/
def hkey_rtds (c : Consts) (key : HEKey) (value : Nat) : HEKey :=
  if c.rapidTriggerTolerance ≤ value ∧ value ≤ c.travelDistance then
    { key with rapidTriggerDownSensitivity := value }
  else key

/-- SerialHandler::hkey_lh: accept the value only when
upperHysteresis - value >= HYSTERESIS_TOLERANCE (int arithmetic). -/
def hkey_lh (c : Consts) (key : HEKey) (value : Nat) : HEKey :=
  if (c.hysteresisTolerance : Int) ≤ (key.upperHysteresis : Int) - (value : Int) then
    { key with lowerHysteresis := value }
  else key

/-- SerialHandler::hkey_uh: accept the value only when
value - lowerHysteresis >= HYSTERESIS_TOLERANCE and
TRAVEL_DISTANCE_IN_0_01MM - value >= HYSTERESIS_TOLERANCE. -/
def hkey_uh (c : Consts) (key : HEKey) (value : Nat) : HEKey :=
  if (c.hysteresisTolerance : Int) ≤ (value : Int) - (key.lowerHysteresis : Int)
      ∧ (c.hysteresisTolerance : Int) ≤ (c.travelDistance : Int) - (value : Int) then
    { key with upperHysteresis := value }
  else key

/-- SerialHandler::key_char of the rewrite (Key base class), hall-effect
side: set the key char unconditionally. -/
def key_char (key : HEKey) (keyChar : Nat) : HEKey :=
  { key with keyChar := keyChar }

/-- SerialHandler::key_char of the rewrite, digital side. -/
def key_charD (key : DigitalKey) (keyChar : Nat) : DigitalKey :=
  { key with keyChar := keyChar }

/-- SerialHandler::key_hid of the rewrite, hall-effect side. -/
def key_hid (key : HEKey) (state : Bool) : HEKey :=
  { key with hidEnabled := state }

/-- SerialHandler::key_hid of the rewrite, digital side. -/
def key_hidD (key : DigitalKey) (state : Bool) : DigitalKey :=
  { key with hidEnabled := state }

/-- SerialHandler::name of the rewrite: store the argument when its length
lies in 1..128 (the memcpy of length + 1 bytes acts as a string copy). -/
def name (cfg : Config) (s : String) : Config :=
  if 1 ≤ s.length ∧ s.length ≤ 128 then { cfg with name := s } else cfg

/-- SerialHandler::printHEKeyOutput: one OUT line for a key, taking the
last raw and mapped values from the keypad handler's runtime state. -/
def printHEKeyOutput (kh : KeypadHandlerState) (key : HEKey) : String :=
  "OUT hkey" ++ toString (key.index + 1) ++ "="
    ++ toString (kh.heKeyStates.getD key.index defState).lastSensorValue
    ++ " " ++ toString (kh.heKeyStates.getD key.index defState).lastMappedValue

/-- SerialHandler::out of the rewrite: with single set (no argument given)
print one line per hall-effect key and leave the state alone; otherwise set
outputMode to the parsed boolean and print nothing. -/
def out (cfg : Config) (kh : KeypadHandlerState) (single state : Bool) :
    KeypadHandlerState × List String :=
  if single then (kh, cfg.heKeys.map (printHEKeyOutput kh))
  else ({ kh with outputMode := state }, [])

/-- Dispatch of one hall-effect setting name onto its setter, as in the
hkey block of SerialHandler::handleSerialInput of the rewrite. -/
def applySetting (c : Consts) (setting arg0 : String) (key : HEKey) : HEKey :=
  if setting = "rt" then hkey_rt key (isTrue arg0)
  else if setting = "crt" then hkey_crt key (isTrue arg0)
  else if setting = "rtus" then hkey_rtus c key (uint16 (atoi arg0))
  else if setting = "rtds" then hkey_rtds c key (uint16 (atoi arg0))
  else if setting = "lh" then hkey_lh c key (uint16 (atoi arg0))
  else if setting = "uh" then hkey_uh c key (uint16 (atoi arg0))
  else if setting = "char" then key_char key (uint8 (charArg arg0))
  else if setting = "hid" then key_hid key (isTrue arg0)
  else key

/-- Dispatch of one digital setting name onto its setter, as in the dkey
block of SerialHandler::handleSerialInput of the rewrite. -/
def applyDigitalSetting (setting arg0 : String) (key : DigitalKey) : DigitalKey :=
  if setting = "char" then key_charD key (uint8 (charArg arg0))
  else if setting = "hid" then key_hidD key (isTrue arg0)
  else key

/-- The hkey command block of the rewrite's handleSerialInput.  keySuffix is
what follows hkey in the command head (empty when no index was given); a
nonempty suffix is parsed with atoi, decremented, truncated to uint8_t and
range-checked against HE_KEYS; out of range aborts the whole command. -/
def hkeyCommand (c : Consts) (cfg : Config) (keySuffix setting arg0 : String) : Config :=
  if 0 < keySuffix.length then
    if HE_KEYS ≤ uint8 (atoi keySuffix - 1) then cfg
    else
      { cfg with heKeys :=
          cfg.heKeys.set (uint8 (atoi keySuffix - 1)) (applySetting c setting arg0
            (cfg.heKeys.getD (uint8 (atoi keySuffix - 1)) defHEKey)) }
  else
    { cfg with heKeys := cfg.heKeys.map (applySetting c setting arg0) }

/-- The dkey command block of the rewrite's handleSerialInput, with the
range check against DIGITAL_KEYS. -/
def dkeyCommand (cfg : Config) (keySuffix setting arg0 : String) : Config :=
  if 0 < keySuffix.length then
    if DIGITAL_KEYS ≤ uint8 (atoi keySuffix - 1) then cfg
    else
      { cfg with digitalKeys :=
          cfg.digitalKeys.set (uint8 (atoi keySuffix - 1)) (applyDigitalSetting setting arg0
            (cfg.digitalKeys.getD (uint8 (atoi keySuffix - 1)) defDKey)) }
  else
    { cfg with digitalKeys := cfg.digitalKeys.map (applyDigitalSetting setting arg0) }

end Rewrite

namespace Legacy

/-- SerialHandler::key_rt of the legacy variant. -/
def key_rt (key : HEKey) (state : Bool) : HEKey :=
  { key with rapidTrigger := state }

/-- SerialHandler::key_crt of the legacy variant. -/
def key_crt (key : HEKey) (state : Bool) : HEKey :=
  { key with continuousRapidTrigger := state }

/-- SerialHandler::key_rtus of the legacy variant. -/
def key_rtus (c : Consts) (key : HEKey) (value : Nat) : HEKey :=
  if c.rapidTriggerTolerance ≤ value ∧ value ≤ c.travelDistance then
    { key with rapidTriggerUpSensitivity := value }
  else key

/-- SerialHandler::key_rtds of the legacy variant. -/
def key_rtds (c : Consts) (key : HEKey) (value : Nat) : HEKey :=
  if c.rapidTriggerTolerance ≤ value ∧ value ≤ c.travelDistance then
    { key with rapidTriggerDownSensitivity := value }
  else key

/-- SerialHandler::key_lh of the legacy variant. -/
def key_lh (c : Consts) (key : HEKey) (value : Nat) : HEKey :=
  if (c.hysteresisTolerance : Int) ≤ (key.upperHysteresis : Int) - (value : Int) then
    { key with lowerHysteresis := value }
  else key

/-- SerialHandler::key_uh of the legacy variant. -/
def key_uh (c : Consts) (key : HEKey) (value : Nat) : HEKey :=
  if (c.hysteresisTolerance : Int) ≤ (value : Int) - (key.lowerHysteresis : Int)
      ∧ (c.hysteresisTolerance : Int) ≤ (c.travelDistance : Int) - (value : Int) then
    { key with upperHysteresis := value }
  else key

/-- SerialHandler::key_char of the legacy variant: accept only byte values
of lowercase letters, 97 to 122. -/
def key_char (key : HEKey) (keyChar : Nat) : HEKey :=
  if 97 ≤ keyChar ∧ keyChar ≤ 122 then { key with keyChar := keyChar } else key

/-- SerialHandler::key_rest of the legacy variant: accept only values above
the down position and at most 2 ^ ANALOG_RESOLUTION - 1. -/
def key_rest (c : Consts) (key : HEKey) (value : Nat) : HEKey :=
  if key.downPosition < value ∧ value ≤ 2 ^ c.analogResolution - 1 then
    { key with restPosition := value }
  else key

/-- SerialHandler::key_down of the legacy variant: accept only values below
the rest position. -/
def key_down (key : HEKey) (value : Nat) : HEKey :=
  if value < key.restPosition then { key with downPosition := value } else key

/-- SerialHandler::key_hid of the legacy variant. -/
def key_hid (key : HEKey) (state : Bool) : HEKey :=
  { key with hidEnabled := state }

/-- SerialHandler::name of the legacy variant (strcpy under the 1..128
length check). -/
def name (cfg : Config) (s : String) : Config :=
  if 1 ≤ s.length ∧ s.length ≤ 128 then { cfg with name := s } else cfg

/-- Dispatch of one setting name in the key block of the legacy
handleSerialInput.  The char argument goes through atoi only. -/
def applySetting (c : Consts) (setting arg0 : String) (key : HEKey) : HEKey :=
  if setting = "rt" then key_rt key (isTrue arg0)
  else if setting = "crt" then key_crt key (isTrue arg0)
  else if setting = "rtus" then key_rtus c key (uint16 (atoi arg0))
  else if setting = "rtds" then key_rtds c key (uint16 (atoi arg0))
  else if setting = "lh" then key_lh c key (uint16 (atoi arg0))
  else if setting = "uh" then key_uh c key (uint16 (atoi arg0))
  else if setting = "char" then key_char key (uint8 (atoi arg0))
  else if setting = "rest" then key_rest c key (uint16 (atoi arg0))
  else if setting = "down" then key_down key (uint16 (atoi arg0))
  else if setting = "hid" then key_hid key (isTrue arg0)
  else key

/-- The key command block of the legacy handleSerialInput.  keySuffix is
what follows key in the command head; a nonempty suffix is parsed with
atoi, decremented, truncated to uint8_t and range-checked against
HE_KEYS. -/
def keyCommand (c : Consts) (cfg : Config) (keySuffix setting arg0 : String) : Config :=
  if 0 < keySuffix.length then
    if HE_KEYS ≤ uint8 (atoi keySuffix - 1) then cfg
    else
      { cfg with heKeys :=
          cfg.heKeys.set (uint8 (atoi keySuffix - 1)) (applySetting c setting arg0
            (cfg.heKeys.getD (uint8 (atoi keySuffix - 1)) defHEKey)) }
  else
    { cfg with heKeys := cfg.heKeys.map (applySetting c setting arg0) }

end Legacy

/-- A representative hall-effect key used for concrete evaluations. -/
def sampleHEKey (i : Nat) : HEKey :=
  { index := i, rapidTrigger := false, continuousRapidTrigger := false
  , rapidTriggerUpSensitivity := 20, rapidTriggerDownSensitivity := 20
  , lowerHysteresis := 100, upperHysteresis := 300, keyChar := 113
  , restPosition := 1800, downPosition := 600, hidEnabled := true }

/-- A representative configuration with the three built hall-effect keys
and one digital key. -/
def sampleCfg : Config :=
  { name := "minipad", heKeys := [sampleHEKey 0, sampleHEKey 1, sampleHEKey 2]
  , digitalKeys := [{ index := 0, keyChar := 100, hidEnabled := true }] }

/-- Representative values for the definitions.hpp constants (the default
minipad values: tolerances 10, 4.00 mm of travel, 12-bit ADC). -/
def sampleConsts : Consts :=
  { hysteresisTolerance := 10, rapidTriggerTolerance := 10
  , travelDistance := 400, analogResolution := 12 }

/-- A representative keypad handler runtime state. -/
def sampleKH : KeypadHandlerState :=
  { outputMode := false
  , heKeyStates := [⟨100, 200⟩, ⟨110, 210⟩, ⟨120, 220⟩] }

/-- The hysteresis gap invariant: the two thresholds are at least
HYSTERESIS_TOLERANCE apart (stated over Int, matching the promoted C
arithmetic). -/
def hysteresisGapOK (c : Consts) (k : HEKey) : Prop :=
  (c.hysteresisTolerance : Int) ≤ (k.upperHysteresis : Int) - (k.lowerHysteresis : Int)

instance (c : Consts) (k : HEKey) : Decidable (hysteresisGapOK c k) :=
  inferInstanceAs (Decidable ((c.hysteresisTolerance : Int) ≤ _ - _))

set_option maxRecDepth 8000

/-- C1: for every analog key whose configuration has hysteresis gap at
least HYSTERESIS_TOLERANCE, any invocation of the lower- or
upper-hysteresis setter (hkey_lh / hkey_uh in the rewrite, key_lh / key_uh
in the legacy variant) with any value keeps the gap at least
HYSTERESIS_TOLERANCE, and a value that would shrink the gap below the
tolerance is rejected with the key left unchanged. -/
theorem hysteresis_gap_preserved (c : Consts) (k : HEKey) (v : Nat)
    (h : hysteresisGapOK c k) :
    hysteresisGapOK c (Rewrite.hkey_lh c k v)
      ∧ hysteresisGapOK c (Rewrite.hkey_uh c k v)
      ∧ hysteresisGapOK c (Legacy.key_lh c k v)
      ∧ hysteresisGapOK c (Legacy.key_uh c k v)
      ∧ (¬ (c.hysteresisTolerance : Int) ≤ (k.upperHysteresis : Int) - (v : Int) →
          Rewrite.hkey_lh c k v = k ∧ Legacy.key_lh c k v = k)
      ∧ (¬ (c.hysteresisTolerance : Int) ≤ (v : Int) - (k.lowerHysteresis : Int) →
          Rewrite.hkey_uh c k v = k ∧ Legacy.key_uh c k v = k) := by
  unfold hysteresisGapOK Rewrite.hkey_lh Rewrite.hkey_uh Legacy.key_lh Legacy.key_uh at *
  refine ⟨?_, ?_, ?_, ?_, ?_, ?_⟩
  · by_cases h1 : (c.hysteresisTolerance : Int) ≤ (k.upperHysteresis : Int) - (v : Int)
    · rw [if_pos h1]; exact h1
    · rw [if_neg h1]; exact h
  · by_cases h2 : (c.hysteresisTolerance : Int) ≤ (v : Int) - (k.lowerHysteresis : Int)
        ∧ (c.hysteresisTolerance : Int) ≤ (c.travelDistance : Int) - (v : Int)
    · rw [if_pos h2]; exact h2.1
    · rw [if_neg h2]; exact h
  · by_cases h1 : (c.hysteresisTolerance : Int) ≤ (k.upperHysteresis : Int) - (v : Int)
    · rw [if_pos h1]; exact h1
    · rw [if_neg h1]; exact h
  · by_cases h2 : (c.hysteresisTolerance : Int) ≤ (v : Int) - (k.lowerHysteresis : Int)
        ∧ (c.hysteresisTolerance : Int) ≤ (c.travelDistance : Int) - (v : Int)
    · rw [if_pos h2]; exact h2.1
    · rw [if_neg h2]; exact h
  · intro h1
    constructor <;> · rw [if_neg h1]
  · intro h2
    have h2' : ¬ ((c.hysteresisTolerance : Int) ≤ (v : Int) - (k.lowerHysteresis : Int)
        ∧ (c.hysteresisTolerance : Int) ≤ (c.travelDistance : Int) - (v : Int)) :=
      fun hc => h2 hc.1
    constructor <;> · rw [if_neg h2']

/-- Witness for C1 at the sample key (gap 200, tolerance 10, value 150). -/
theorem hysteresis_gap_preserved_witness :
    hysteresisGapOK sampleConsts (Rewrite.hkey_lh sampleConsts (sampleHEKey 0) 150)
      ∧ hysteresisGapOK sampleConsts (Rewrite.hkey_uh sampleConsts (sampleHEKey 0) 150)
      ∧ hysteresisGapOK sampleConsts (Legacy.key_lh sampleConsts (sampleHEKey 0) 150)
      ∧ hysteresisGapOK sampleConsts (Legacy.key_uh sampleConsts (sampleHEKey 0) 150) := by
  have h := hysteresis_gap_preserved sampleConsts (sampleHEKey 0) 150 (by decide)
  exact ⟨h.1, h.2.1, h.2.2.1, h.2.2.2.1⟩

/-- C7: the rewrite's four numeric setters are extensionally equal to the
legacy variant's: same accepted values, same resulting key. -/
theorem numeric_setters_equivalent (c : Consts) (k : HEKey) (v : Nat) :
    Rewrite.hkey_rtus c k v = Legacy.key_rtus c k v
      ∧ Rewrite.hkey_rtds c k v = Legacy.key_rtds c k v
      ∧ Rewrite.hkey_lh c k v = Legacy.key_lh c k v
      ∧ Rewrite.hkey_uh c k v = Legacy.key_uh c k v :=
  ⟨rfl, rfl, rfl, rfl⟩

/-- C8: the rapid-trigger sensitivity setters of both variants accept a
value exactly when it lies in [RAPID_TRIGGER_TOLERANCE,
TRAVEL_DISTANCE_IN_0_01MM], writing it on acceptance and leaving the key
unchanged otherwise. -/
theorem rt_sensitivity_setter_range (c : Consts) (k : HEKey) (v : Nat) :
    Rewrite.hkey_rtus c k v
        = (if c.rapidTriggerTolerance ≤ v ∧ v ≤ c.travelDistance then
            { k with rapidTriggerUpSensitivity := v } else k)
      ∧ Rewrite.hkey_rtds c k v
        = (if c.rapidTriggerTolerance ≤ v ∧ v ≤ c.travelDistance then
            { k with rapidTriggerDownSensitivity := v } else k)
      ∧ Legacy.key_rtus c k v
        = (if c.rapidTriggerTolerance ≤ v ∧ v ≤ c.travelDistance then
            { k with rapidTriggerUpSensitivity := v } else k)
      ∧ Legacy.key_rtds c k v
        = (if c.rapidTriggerTolerance ≤ v ∧ v ≤ c.travelDistance then
            { k with rapidTriggerDownSensitivity := v } else k) :=
  ⟨rfl, rfl, rfl, rfl⟩

/-- C9: both name commands store the argument exactly when its length is
between 1 and 128; a 130-character string is rejected with the stored name
unchanged, and a 5-character string is accepted and stored. -/
theorem name_setter_length (cfg : Config) (s : String) :
    (Rewrite.name cfg s
        = if 1 ≤ s.length ∧ s.length ≤ 128 then { cfg with name := s } else cfg)
      ∧ (Legacy.name cfg s
        = if 1 ≤ s.length ∧ s.length ≤ 128 then { cfg with name := s } else cfg)
      ∧ Rewrite.name cfg (String.mk (List.replicate 130 'a')) = cfg
      ∧ (Rewrite.name cfg (String.mk (List.replicate 5 'a'))).name
          = String.mk (List.replicate 5 'a')
      ∧ Legacy.name cfg (String.mk (List.replicate 130 'a')) = cfg
      ∧ (Legacy.name cfg (String.mk (List.replicate 5 'a'))).name
          = String.mk (List.replicate 5 'a') := by
  refine ⟨rfl, rfl, if_neg (by decide), congrArg Config.name (if_pos (by decide)),
    if_neg (by decide), congrArg Config.name (if_pos (by decide))⟩

/-- C2 counterexample: index 257 is outside the 1..3 key range, yet the
hkey command with suffix 257 does modify a key: the uint8_t truncation of
atoi(257) - 1 wraps to 0, so key 1 gets its rapid trigger flag set. -/
theorem index_wrap_counterexample :
    HE_KEYS < 257
      ∧ Rewrite.hkeyCommand sampleConsts sampleCfg "257" "rt" "1" ≠ sampleCfg
      ∧ ((Rewrite.hkeyCommand sampleConsts sampleCfg "257" "rt" "1").heKeys.getD 0
          defHEKey).rapidTrigger = true := by
  refine ⟨by decide, by decide, by decide⟩

/-- C2 amended: an explicit key index aborts the whole command with no key
modified exactly when the uint8_t truncation of index - 1 is at least the
configured key count; indices at least 257 can wrap around into range,
in which case a key is modified. -/
theorem truncated_index_abort (c : Consts) (cfg : Config)
    (sfx setting arg0 : String) (hs : 0 < sfx.length) :
    (HE_KEYS ≤ uint8 (atoi sfx - 1) →
        Rewrite.hkeyCommand c cfg sfx setting arg0 = cfg
          ∧ Legacy.keyCommand c cfg sfx setting arg0 = cfg)
      ∧ (DIGITAL_KEYS ≤ uint8 (atoi sfx - 1) →
        Rewrite.dkeyCommand cfg sfx setting arg0 = cfg) := by
  unfold Rewrite.hkeyCommand Legacy.keyCommand Rewrite.dkeyCommand
  exact ⟨fun h => ⟨by rw [if_pos hs, if_pos h], by rw [if_pos hs, if_pos h]⟩,
    fun h => by rw [if_pos hs, if_pos h]⟩

/-- Witness for C2 amended: suffix 999 truncates to index 230, out of
range for both key kinds, and all three command blocks leave the
configuration untouched. -/
theorem truncated_index_abort_witness :
    Rewrite.hkeyCommand sampleConsts sampleCfg "999" "rt" "1" = sampleCfg
      ∧ Legacy.keyCommand sampleConsts sampleCfg "999" "rt" "1" = sampleCfg
      ∧ Rewrite.dkeyCommand sampleCfg "999" "char" "97" = sampleCfg := by
  have h1 := truncated_index_abort sampleConsts sampleCfg "999" "rt" "1" (by decide)
  have h2 := truncated_index_abort sampleConsts sampleCfg "999" "char" "97" (by decide)
  exact ⟨(h1.1 (by decide)).1, (h1.1 (by decide)).2, h2.2 (by decide)⟩

/-- C3: every range-checked setter is all-or-nothing: a value failing the
setter's check leaves the whole key (or the stored name) exactly as it
was.  The setters contain no output statement, so nothing is emitted on
rejection. -/
theorem rejected_value_leaves_state_unchanged (c : Consts) (k : HEKey)
    (v : Nat) (cfg : Config) (s : String) :
    (¬(c.rapidTriggerTolerance ≤ v ∧ v ≤ c.travelDistance) →
        Rewrite.hkey_rtus c k v = k ∧ Rewrite.hkey_rtds c k v = k
          ∧ Legacy.key_rtus c k v = k ∧ Legacy.key_rtds c k v = k)
      ∧ (¬ (c.hysteresisTolerance : Int) ≤ (k.upperHysteresis : Int) - (v : Int) →
        Rewrite.hkey_lh c k v = k ∧ Legacy.key_lh c k v = k)
      ∧ (¬((c.hysteresisTolerance : Int) ≤ (v : Int) - (k.lowerHysteresis : Int)
            ∧ (c.hysteresisTolerance : Int) ≤ (c.travelDistance : Int) - (v : Int)) →
        Rewrite.hkey_uh c k v = k ∧ Legacy.key_uh c k v = k)
      ∧ (¬(k.downPosition < v ∧ v ≤ 2 ^ c.analogResolution - 1) →
        Legacy.key_rest c k v = k)
      ∧ (¬ v < k.restPosition → Legacy.key_down k v = k)
      ∧ (¬(1 ≤ s.length ∧ s.length ≤ 128) →
        Rewrite.name cfg s = cfg ∧ Legacy.name cfg s = cfg) := by
  unfold Rewrite.hkey_rtus Rewrite.hkey_rtds Legacy.key_rtus Legacy.key_rtds
    Rewrite.hkey_lh Legacy.key_lh Rewrite.hkey_uh Legacy.key_uh
    Legacy.key_rest Legacy.key_down Rewrite.name Legacy.name
  exact ⟨fun h => ⟨if_neg h, if_neg h, if_neg h, if_neg h⟩,
    fun h => ⟨if_neg h, if_neg h⟩,
    fun h => ⟨if_neg h, if_neg h⟩,
    fun h => if_neg h,
    fun h => if_neg h,
    fun h => ⟨if_neg h, if_neg h⟩⟩

/-- Witness for C3: the value 50000 fails every range check of the sample
key, and the empty string fails the name length check; everything is left
unchanged. -/
theorem rejected_value_leaves_state_unchanged_witness :
    Rewrite.hkey_rtus sampleConsts (sampleHEKey 0) 50000 = sampleHEKey 0
      ∧ Rewrite.hkey_lh sampleConsts (sampleHEKey 0) 50000 = sampleHEKey 0
      ∧ Rewrite.hkey_uh sampleConsts (sampleHEKey 0) 50000 = sampleHEKey 0
      ∧ Legacy.key_rest sampleConsts (sampleHEKey 0) 50000 = sampleHEKey 0
      ∧ Legacy.key_down (sampleHEKey 0) 50000 = sampleHEKey 0
      ∧ Rewrite.name sampleCfg "" = sampleCfg := by
  have h := rejected_value_leaves_state_unchanged sampleConsts (sampleHEKey 0)
    50000 sampleCfg ""
  exact ⟨(h.1 (by decide)).1, (h.2.1 (by decide)).1, (h.2.2.1 (by decide)).1,
    h.2.2.2.1 (by decide), h.2.2.2.2.1 (by decide), (h.2.2.2.2.2 (by decide)).1⟩

/-- C4: for a key with restPosition above downPosition, key_rest and
key_down keep that ordering for every input value: key_rest accepts
exactly the values above the current down position and within the analog
resolution range, key_down accepts exactly the values below the current
rest position, and rejected values change nothing. -/
theorem rest_down_order_preserved (c : Consts) (k : HEKey) (v : Nat)
    (h : k.downPosition < k.restPosition) :
    (Legacy.key_rest c k v).downPosition < (Legacy.key_rest c k v).restPosition
      ∧ (Legacy.key_down k v).downPosition < (Legacy.key_down k v).restPosition
      ∧ Legacy.key_rest c k v
          = (if k.downPosition < v ∧ v ≤ 2 ^ c.analogResolution - 1 then
              { k with restPosition := v } else k)
      ∧ Legacy.key_down k v
          = (if v < k.restPosition then { k with downPosition := v } else k) := by
  unfold Legacy.key_rest Legacy.key_down
  refine ⟨?_, ?_, rfl, rfl⟩
  · by_cases h1 : k.downPosition < v ∧ v ≤ 2 ^ c.analogResolution - 1
    · rw [if_pos h1]; exact h1.1
    · rw [if_neg h1]; exact h
  · by_cases h2 : v < k.restPosition
    · rw [if_pos h2]; exact h2
    · rw [if_neg h2]; exact h

/-- Witness for C4 at the sample key (rest 1800, down 600) and value
2000: the ordering survives both setters. -/
theorem rest_down_order_preserved_witness :
    (Legacy.key_rest sampleConsts (sampleHEKey 0) 2000).downPosition
        < (Legacy.key_rest sampleConsts (sampleHEKey 0) 2000).restPosition
      ∧ (Legacy.key_down (sampleHEKey 0) 2000).downPosition
        < (Legacy.key_down (sampleHEKey 0) 2000).restPosition := by
  have h := rest_down_order_preserved sampleConsts (sampleHEKey 0) 2000 (by decide)
  exact ⟨h.1, h.2.1⟩

/-- C5 counterexample: the single-shot dump prints lines with the prefix
OUT hkey, not OUT key as the claim states: at the sample state the first
key's line is OUT hkey1=100 200, which differs from the claimed
OUT key1=100 200. -/
theorem out_format_counterexample :
    (Rewrite.out sampleCfg sampleKH true false).2
        = ["OUT hkey1=100 200", "OUT hkey2=110 210", "OUT hkey3=120 220"]
      ∧ "OUT hkey1=100 200" ≠ "OUT key1=100 200"
      ∧ (Rewrite.out sampleCfg sampleKH true false).1 = sampleKH := by
  refine ⟨by decide, by decide, by decide⟩

/-- C5 amended: the out command with no argument prints, per analog key,
one line OUT hkey followed by the 1-based index, an equals sign, the last
raw sensor reading, a space and the last mapped value, and leaves the
output mode unchanged; with an argument it sets the output mode to the
parsed boolean and prints nothing. -/
theorem out_command_amended (cfg : Config) (kh : KeypadHandlerState) (st : Bool) :
    (Rewrite.out cfg kh true st).1 = kh
      ∧ (Rewrite.out cfg kh true st).2 = cfg.heKeys.map (Rewrite.printHEKeyOutput kh)
      ∧ (∀ key : HEKey, Rewrite.printHEKeyOutput kh key
          = "OUT hkey" ++ toString (key.index + 1) ++ "="
              ++ toString (kh.heKeyStates.getD key.index defState).lastSensorValue
              ++ " " ++ toString (kh.heKeyStates.getD key.index defState).lastMappedValue)
      ∧ Rewrite.out cfg kh false st = ({ kh with outputMode := st }, []) :=
  ⟨rfl, rfl, fun _ => rfl, rfl⟩

/-- C6 counterexample: in the legacy variant the lowercase-letter
restriction sits in key_char on the hall-effect key type, so an analog
key's char is validated (value 65 is refused, keyChar stays 113), and the
legacy parser reads the argument with atoi only, so the literal character
argument a leaves the sample key's char at 113 instead of storing 97. -/
theorem char_validation_counterexample :
    ((Legacy.key_char (sampleHEKey 0) 65).keyChar = 113 ∧ (113 : Nat) ≠ 65)
      ∧ (((Legacy.keyCommand sampleConsts sampleCfg "1" "char" "a").heKeys.getD 0
            defHEKey).keyChar = 113
          ∧ (113 : Nat) ≠ 97) := by
  refine ⟨⟨by decide, by decide⟩, by decide, by decide⟩

/-- C6 amended: the rewrite parses the char argument as a literal single
character or a decimal integer and stores the resulting byte without
validation on both key kinds; the legacy variant parses it with atoi only
and its key_char restricts analog keys to lowercase letter bytes 97 to
122. -/
theorem char_setting_amended (c : Consts) (k : HEKey) (dk : DigitalKey)
    (a : String) (v : Nat) :
    Rewrite.applySetting c "char" a k = { k with keyChar := uint8 (charArg a) }
      ∧ Rewrite.applyDigitalSetting "char" a dk
          = { dk with keyChar := uint8 (charArg a) }
      ∧ (charArg a
          = if a.data.length = 1 then ((a.data.headD ' ').toNat : Int) else atoi a)
      ∧ Legacy.applySetting c "char" a k = Legacy.key_char k (uint8 (atoi a))
      ∧ Legacy.key_char k v
          = (if 97 ≤ v ∧ v ≤ 122 then { k with keyChar := v } else k) :=
  ⟨rfl, rfl, rfl, rfl, rfl⟩

/-- C10: every per-key setter touches at most the configuration field it
is named after, whether the value is accepted or rejected, and an indexed
hkey command leaves every key at a different position untouched. -/
theorem setter_frame (c : Consts) (cfg : Config) (k : HEKey)
    (dk : DigitalKey) (b : Bool) (v : Nat) :
    (∀ sfx setting arg0 : String, ∀ j : Nat,
        0 < sfx.length → j ≠ uint8 (atoi sfx - 1) →
        (Rewrite.hkeyCommand c cfg sfx setting arg0).heKeys.getD j defHEKey
          = cfg.heKeys.getD j defHEKey)
      ∧ Rewrite.hkey_rt k b = { k with rapidTrigger := b }
      ∧ Rewrite.hkey_crt k b = { k with continuousRapidTrigger := b }
      ∧ (Rewrite.hkey_rtus c k v = k
          ∨ Rewrite.hkey_rtus c k v = { k with rapidTriggerUpSensitivity := v })
      ∧ (Rewrite.hkey_rtds c k v = k
          ∨ Rewrite.hkey_rtds c k v = { k with rapidTriggerDownSensitivity := v })
      ∧ (Rewrite.hkey_lh c k v = k
          ∨ Rewrite.hkey_lh c k v = { k with lowerHysteresis := v })
      ∧ (Rewrite.hkey_uh c k v = k
          ∨ Rewrite.hkey_uh c k v = { k with upperHysteresis := v })
      ∧ Rewrite.key_char k v = { k with keyChar := v }
      ∧ Rewrite.key_hid k b = { k with hidEnabled := b }
      ∧ Rewrite.key_charD dk v = { dk with keyChar := v }
      ∧ Rewrite.key_hidD dk b = { dk with hidEnabled := b }
      ∧ (Legacy.key_char k v = k
          ∨ Legacy.key_char k v = { k with keyChar := v }) := by
  refine ⟨?_, rfl, rfl, ?_, ?_, ?_, ?_, rfl, rfl, rfl, rfl, ?_⟩
  · intro sfx setting arg0 j hs hj
    unfold Rewrite.hkeyCommand
    rw [if_pos hs]
    by_cases hk : HE_KEYS ≤ uint8 (atoi sfx - 1)
    · rw [if_pos hk]
    · rw [if_neg hk]
      simp only [List.getD_eq_getElem?_getD, List.getElem?_set_ne (Ne.symm hj)]
  · unfold Rewrite.hkey_rtus
    by_cases h : c.rapidTriggerTolerance ≤ v ∧ v ≤ c.travelDistance
    · exact Or.inr (if_pos h)
    · exact Or.inl (if_neg h)
  · unfold Rewrite.hkey_rtds
    by_cases h : c.rapidTriggerTolerance ≤ v ∧ v ≤ c.travelDistance
    · exact Or.inr (if_pos h)
    · exact Or.inl (if_neg h)
  · unfold Rewrite.hkey_lh
    by_cases h : (c.hysteresisTolerance : Int) ≤ (k.upperHysteresis : Int) - (v : Int)
    · exact Or.inr (if_pos h)
    · exact Or.inl (if_neg h)
  · unfold Rewrite.hkey_uh
    by_cases h : (c.hysteresisTolerance : Int) ≤ (v : Int) - (k.lowerHysteresis : Int)
        ∧ (c.hysteresisTolerance : Int) ≤ (c.travelDistance : Int) - (v : Int)
    · exact Or.inr (if_pos h)
    · exact Or.inl (if_neg h)
  · unfold Legacy.key_char
    by_cases h : 97 ≤ v ∧ v ≤ 122
    · exact Or.inr (if_pos h)
    · exact Or.inl (if_neg h)

/-- Witness for C10: the hkey command addressed at key 2 leaves key 1's
configuration untouched. -/
theorem setter_frame_witness :
    (Rewrite.hkeyCommand sampleConsts sampleCfg "2" "rt" "1").heKeys.getD 0 defHEKey
      = sampleCfg.heKeys.getD 0 defHEKey :=
  (setter_frame sampleConsts sampleCfg defHEKey defDKey true 0).1 "2" "rt" "1" 0
    (by decide) (by decide)
